import Mathlib

/-!
Verification of the reactive filter-and-aggregate pipeline of the SpaceX
launch-records dashboard (`spacex_dash_app.py`).

The embedding models one launch record as a structure over the four columns
the core uses.  The `class` column (binary outcome) and the
`Payload Mass (kg)` column may be missing in a row (pandas `NaN`), so they
are modelled as `Option`; in pandas any comparison with `NaN` is false and
`value_counts` / `sum` skip `NaN`, which is mirrored below.  Payload masses
are modelled as rationals.
-/

/-- One row of the dataset: the four columns used by the dashboard core.
`cls` embeds the `class` column (0/1 outcome; `none` = NaN),
`payloadMass` embeds `Payload Mass (kg)` (`none` = NaN). -/
structure LaunchRecord where
  launchSite : String
  cls : Option Int
  payloadMass : Option ℚ
  boosterVersionCategory : String
deriving DecidableEq, Repr

/-- The in-memory dataset: ordered sequence of rows, as in the DataFrame. -/
abbrev Dataset := List LaunchRecord

/-- The payload-range predicate of `get_scatter_plot`:
`(df["Payload Mass (kg)"] >= low) & (df["Payload Mass (kg)"] <= high)`.
A NaN payload compares false on both sides in pandas, hence `false` at `none`. -/
def payloadInRange (low high : ℚ) (r : LaunchRecord) : Bool :=
  match r.payloadMass with
  | some p => decide (low ≤ p) && decide (p ≤ high)
  | none => false

/-- The site predicate `df["Launch Site"] == entered_site`. -/
def siteMatches (site : String) (r : LaunchRecord) : Bool :=
  r.launchSite == site

/-- The payload-range row selection performed first in `get_scatter_plot`. -/
def payload_filter (ds : Dataset) (low high : ℚ) : Dataset :=
  ds.filter (payloadInRange low high)

/-- The row subset handed to `px.scatter`: payload-range filter, then the
site filter when `entered_site != "ALL"`. -/
def scatter_filter (ds : Dataset) (site : String) (low high : ℚ) : Dataset :=
  let df := payload_filter ds low high
  if site == "ALL" then df else df.filter (siteMatches site)

/-- The columns `px.scatter` plots for one surviving row:
x = payload mass, y = class, color = booster version category. -/
def projectRecord (r : LaunchRecord) : Option ℚ × Option Int × String :=
  (r.payloadMass, r.cls, r.boosterVersionCategory)

/-- The scatter-chart specification produced by `get_scatter_plot`. -/
structure ScatterSpec where
  points : List (Option ℚ × Option Int × String)
  title : String
deriving DecidableEq, Repr

/-- Embedding of the callback `get_scatter_plot(entered_site, payload_range)`. -/
def get_scatter_plot (ds : Dataset) (site : String) (low high : ℚ) : ScatterSpec :=
  { points := (scatter_filter ds site low high).map projectRecord
    title :=
      if site == "ALL" then "Correlation between Payload and Success for all Sites"
      else "Correlation between Payload and Success for site " ++ site }

/-- The combined row predicate of the scatter pipeline, as a single boolean. -/
def combinedPred (site : String) (low high : ℚ) (r : LaunchRecord) : Bool :=
  payloadInRange low high r && (site == "ALL" || siteMatches site r)

/-- The rows of the dataset whose `Launch Site` equals `s`
(`spacex_df[spacex_df["Launch Site"] == entered_site]`). -/
def siteRecords (ds : Dataset) (s : String) : Dataset :=
  ds.filter (fun r => r.launchSite == s)

/-- The `class` values present (non-NaN) in a row list, in row order;
pandas `value_counts` and `sum` operate on these. -/
def presentClasses (l : List LaunchRecord) : List Int :=
  l.filterMap (·.cls)

/-- Distinct site names in order of first appearance, the grouping keys
`px.pie(values="class", names="Launch Site")` aggregates over. -/
def uniqueKeys : List String → List String
  | [] => []
  | s :: rest => s :: uniqueKeys (rest.filter (fun t => t != s))
termination_by l => l.length
decreasing_by simpa using Nat.lt_succ_of_le (List.length_filter_le _ _)

/-- All-sites pie data: one slice per site, slice value = sum of that
site's `class` column (pandas sum skips NaN). -/
def pie_all (ds : Dataset) : List (String × Int) :=
  (uniqueKeys (ds.map (·.launchSite))).map
    (fun s => (s, (presentClasses (siteRecords ds s)).sum))

/-- Single-site mode: `value_counts` of the `class` column followed by
`sort_values("class")` — the distinct present class values in ascending
order, each with its number of occurrences.  `value_counts` drops NaN. -/
def single_counts (ds : Dataset) (s : String) : List (Int × Nat) :=
  let vals := List.insertionSort (· ≤ ·) (presentClasses (siteRecords ds s)).dedup
  vals.map (fun v => (v, (presentClasses (siteRecords ds s)).count v))

/-- The label map `{0: "Failure", 1: "Success"}` with
`fillna(class.astype(str))` as the fallback. -/
def outcomeLabel (v : Int) : String :=
  if v = 0 then "Failure" else if v = 1 then "Success" else toString v

/-- The pie-chart specification produced by `get_pie_chart`: slice
labels with their values, and the title. -/
structure PieSpec where
  data : List (String × Int)
  title : String
deriving DecidableEq, Repr

/-- Embedding of the callback `get_pie_chart(entered_site)`.  Its only
input is the site dropdown; the payload slider is not wired to it. -/
def get_pie_chart (ds : Dataset) (entered_site : String) : PieSpec :=
  if entered_site == "ALL" then
    { data := pie_all ds
      title := "Total Successful Launches by Site" }
  else
    { data := (single_counts ds entered_site).map
        (fun vc => (outcomeLabel vc.1, (vc.2 : Int)))
      title := "Total Launch Outcomes for site " ++ entered_site }

/-- The current values of the two UI controls. -/
structure ControlState where
  site : String
  low : ℚ
  high : ℚ

/-- The pie-chart reaction as a function of the full control state: the
callback registration passes only `site-dropdown` to `get_pie_chart`. -/
def distribution_reaction (ds : Dataset) (c : ControlState) : PieSpec :=
  get_pie_chart ds c.site

/-- The scatter-chart reaction as a function of the full control state:
the callback registration passes the dropdown and both slider handles. -/
def correlation_reaction (ds : Dataset) (c : ControlState) : ScatterSpec :=
  get_scatter_plot ds c.site c.low c.high

/-- The two failure modes of `load_data`: `FileNotFoundError` when the
path does not exist, `ValueError` naming the sorted missing columns. -/
inductive LoadError where
  | dataLoadError (msg : String)
  | schemaError (missing : List String)
deriving DecidableEq, Repr

/-- Abstraction of the CSV source handed to `load_data`: whether the path
exists, the columns `pd.read_csv` would find, and the parsed rows. -/
structure CSVSource where
  pathExists : Bool
  columns : List String
  rows : List LaunchRecord

/-- The required column set checked by `load_data`. -/
def required_cols : List String :=
  ["Launch Site", "class", "Payload Mass (kg)", "Booster Version Category"]

/-- Embedding of `load_data`: missing file raises `FileNotFoundError`;
otherwise the missing required columns (`required_cols - set(df.columns)`,
reported via `sorted(missing)`) trigger a `ValueError`; otherwise the
whole parsed table is returned. -/
def load_data (src : CSVSource) : Except LoadError Dataset :=
  if src.pathExists = false then
    .error (.dataLoadError "No se encontró el dataset")
  else
    let missing := List.insertionSort (· ≤ ·)
      (required_cols.filter (fun c => !(src.columns.contains c)))
    if missing.isEmpty then .ok src.rows
    else .error (.schemaError missing)

/-- `launch_sites = sorted(spacex_df["Launch Site"].dropna().unique().tolist())`;
sites are non-null strings in this model, so `dropna` is the identity. -/
def launch_sites (ds : Dataset) : List String :=
  List.insertionSort (· ≤ ·) (ds.map (·.launchSite)).dedup

/-- The dropdown option values: `"ALL"` followed by the sorted site list. -/
def dropdown_options (ds : Dataset) : List String :=
  "ALL" :: launch_sites ds

/-- The dropdown's initial value (`value="ALL"`). -/
def dropdown_default : String := "ALL"

/-- Minimum of a list of rationals, `none` on the empty list; pandas
`min` skips NaN, which `presentPayloads` already removed. -/
def listMin : List ℚ → Option ℚ
  | [] => none
  | p :: ps =>
    some (match listMin ps with
          | none => p
          | some m => min p m)

/-- Maximum of a list of rationals, `none` on the empty list. -/
def listMax : List ℚ → Option ℚ
  | [] => none
  | p :: ps =>
    some (match listMax ps with
          | none => p
          | some m => max p m)

/-- The payload values present (non-NaN) in the dataset. -/
def presentPayloads (ds : Dataset) : List ℚ :=
  ds.filterMap (·.payloadMass)

/-- `min_payload = float(spacex_df["Payload Mass (kg)"].min())`. -/
def min_payload (ds : Dataset) : Option ℚ :=
  listMin (presentPayloads ds)

/-- `max_payload = float(spacex_df["Payload Mass (kg)"].max())`. -/
def max_payload (ds : Dataset) : Option ℚ :=
  listMax (presentPayloads ds)

/-- The `dcc.RangeSlider` configuration in the layout. -/
structure SliderSpec where
  min : ℚ
  max : ℚ
  step : ℚ
  marks : List ℚ
  value : Option ℚ × Option ℚ
deriving DecidableEq, Repr

/-- The payload slider as declared in the layout: fixed nominal bounds
and marks, initial value = the dataset's observed payload extremes. -/
def payload_slider (ds : Dataset) : SliderSpec :=
  { min := 0
    max := 10000
    step := 1000
    marks := [0, 2500, 5000, 7500, 10000]
    value := (min_payload ds, max_payload ds) }

/-- Four sample rows mirroring the specification's scenario dataset:
sites A, A, B, B; outcomes 1, 0, 1, 1; payloads 1000, 2000, 3000, 4000. -/
def sampleA1 : LaunchRecord :=
  { launchSite := "A", cls := some 1, payloadMass := some 1000
    boosterVersionCategory := "v1" }

/-- Second sample row (site A, failure, payload 2000). -/
def sampleA0 : LaunchRecord :=
  { launchSite := "A", cls := some 0, payloadMass := some 2000
    boosterVersionCategory := "v1" }

/-- Third sample row (site B, success, payload 3000). -/
def sampleB1 : LaunchRecord :=
  { launchSite := "B", cls := some 1, payloadMass := some 3000
    boosterVersionCategory := "v2" }

/-- Fourth sample row (site B, success, payload 4000). -/
def sampleB2 : LaunchRecord :=
  { launchSite := "B", cls := some 1, payloadMass := some 4000
    boosterVersionCategory := "v2" }

/-- The scenario dataset used to instantiate witness statements. -/
def sampleDS : Dataset := [sampleA1, sampleA0, sampleB1, sampleB2]

/-- A row whose class and payload are both missing (NaN), for the
missing-value claims. -/
def sampleNaN : LaunchRecord :=
  { launchSite := "A", cls := none, payloadMass := none
    boosterVersionCategory := "v3" }

/-- The scenario dataset extended with the all-NaN row. -/
def sampleDSN : Dataset := sampleDS ++ [sampleNaN]

theorem scatter_filter_eq_filter (ds : Dataset) (site : String) (low high : ℚ) :
    scatter_filter ds site low high = ds.filter (combinedPred site low high) := by
  unfold scatter_filter payload_filter combinedPred
  by_cases h : site == "ALL"
  · simp only [h, if_pos]
    refine (List.filter_congr ?_).symm
    intro r _
    simp [h]
  · simp only [h, if_neg, Bool.false_eq_true, not_false_iff]
    rw [List.filter_filter]
    refine List.filter_congr ?_
    intro r _
    cases hb : siteMatches site r <;> simp [Bool.eq_false_iff.mpr h, hb, Bool.and_comm]

theorem payloadInRange_iff (low high : ℚ) (r : LaunchRecord) :
    payloadInRange low high r = true ↔
      ∃ p, r.payloadMass = some p ∧ low ≤ p ∧ p ≤ high := by
  cases hp : r.payloadMass <;> simp [payloadInRange, hp]

/-- C1: for every dataset, site selection and payload range, the scatter
projection is exactly the subset of rows satisfying both the inclusive
payload-range predicate and the site predicate (with `"ALL"` rejecting
nothing), each row projected to its unchanged (payload, class, booster)
values, in the dataset's original order. -/
theorem scatter_projection_exact (ds : Dataset) (site : String) (low high : ℚ) :
    (get_scatter_plot ds site low high).points =
      (ds.filter (fun r =>
          (match r.payloadMass with
           | some p => decide (low ≤ p) && decide (p ≤ high)
           | none => false)
          && (site == "ALL" || r.launchSite == site))).map
        (fun r => (r.payloadMass, r.cls, r.boosterVersionCategory)) := by
  show (scatter_filter ds site low high).map projectRecord = _
  rw [scatter_filter_eq_filter]
  rfl

/-- C5: for payload ranges with `low ≤ high`, the payload filter returns
exactly the rows with `low ≤ payload ≤ high`, as a stable (order-
preserving) sublist of the dataset, and every row it keeps is also kept
by any wider range `low' ≤ low`, `high ≤ high'`. -/
theorem payload_filter_exact_and_monotone (ds : Dataset) (low high low' high' : ℚ)
    (_hlh : low ≤ high) (hl : low' ≤ low) (hh : high ≤ high') :
    (∀ r, r ∈ payload_filter ds low high ↔
        r ∈ ds ∧ ∃ p, r.payloadMass = some p ∧ low ≤ p ∧ p ≤ high) ∧
    (payload_filter ds low high).Sublist ds ∧
    (∀ r, r ∈ payload_filter ds low high → r ∈ payload_filter ds low' high') := by
  refine ⟨fun r => ?_, List.filter_sublist ds, fun r hr => ?_⟩
  · rw [payload_filter, List.mem_filter, payloadInRange_iff]
  · rw [payload_filter, List.mem_filter, payloadInRange_iff] at hr ⊢
    obtain ⟨hmem, p, hp, h1, h2⟩ := hr
    exact ⟨hmem, p, hp, le_trans hl h1, le_trans h2 hh⟩

/-- Witness for C5: the row with payload 2000 survives the range
(1500, 2500) and hence also the wider range (0, 10000). -/
theorem payload_filter_witness :
    sampleA0 ∈ payload_filter sampleDS 0 10000 :=
  (payload_filter_exact_and_monotone sampleDS 1500 2500 0 10000
      (by norm_num) (by norm_num) (by norm_num)).2.2 sampleA0 (by decide)

/-- C6: the scatter pipeline never fails: whenever `low > high`, and in
general whenever no row satisfies the combined site-and-range predicate,
the projection is the empty list of points. -/
theorem scatter_empty_not_error (ds : Dataset) (site : String) (low high : ℚ)
    (h : high < low ∨ ∀ r ∈ ds, combinedPred site low high r = false) :
    (get_scatter_plot ds site low high).points = [] := by
  have hall : ∀ r ∈ ds, combinedPred site low high r = false := by
    rcases h with h | h
    · intro r _
      unfold combinedPred payloadInRange
      cases hp : r.payloadMass with
      | none => rfl
      | some p =>
          by_cases h1 : low ≤ p
          · have h2 : ¬ p ≤ high := fun h2 => absurd h (not_lt.mpr (le_trans h1 h2))
            simp [h1, h2]
          · simp [h1]
    · exact h
  show (scatter_filter ds site low high).map projectRecord = []
  rw [scatter_filter_eq_filter, List.filter_eq_nil_iff.mpr ?_, List.map_nil]
  intro r hr
  simp [hall r hr]

/-- Witness for C6: the specification's scenario 4 — range (9000, 9500)
on the scenario dataset yields an empty projection. -/
theorem scatter_empty_witness :
    (get_scatter_plot sampleDS "ALL" 9000 9500).points = [] :=
  scatter_empty_not_error sampleDS "ALL" 9000 9500 (Or.inr (by decide))

/-- C10: a row whose payload mass is missing fails the range predicate for
every payload range and site selection, so it is never kept by the
scatter filter, and every projected point carries a present payload. -/
theorem missing_payload_never_projected (ds : Dataset) (site : String) (low high : ℚ)
    (r : LaunchRecord) (hr : r.payloadMass = none) :
    r ∉ scatter_filter ds site low high ∧
    ∀ t ∈ (get_scatter_plot ds site low high).points, t.1 ≠ none := by
  constructor
  · rw [scatter_filter_eq_filter]
    intro hmem
    have hc := (List.mem_filter.mp hmem).2
    have hp := (payloadInRange_iff low high r).mp
      (Bool.and_eq_true_iff.mp hc).1
    obtain ⟨p, hp, -⟩ := hp
    rw [hr] at hp
    cases hp
  · intro t ht
    obtain ⟨r', hr', hproj⟩ := List.mem_map.mp ht
    rw [scatter_filter_eq_filter] at hr'
    have hc := (List.mem_filter.mp hr').2
    obtain ⟨p, hp, -⟩ := (payloadInRange_iff low high r').mp
      (Bool.and_eq_true_iff.mp hc).1
    rw [← hproj]
    show r'.payloadMass ≠ none
    rw [hp]
    exact Option.some_ne_none p

/-- Witness for C10: the all-NaN row is not kept by the scatter filter
even for the widest range over all sites. -/
theorem missing_payload_witness :
    sampleNaN ∉ scatter_filter sampleDSN "ALL" 0 10000 :=
  (missing_payload_never_projected sampleDSN "ALL" 0 10000 sampleNaN rfl).1

theorem mem_uniqueKeys : ∀ (l : List String) (x : String), x ∈ uniqueKeys l ↔ x ∈ l := by
  intro l
  induction l using uniqueKeys.induct with
  | case1 =>
      intro x
      rw [uniqueKeys]
  | case2 s rest ih =>
      intro x
      rw [uniqueKeys]
      by_cases hx : x = s
      · simp [hx]
      · simp only [List.mem_cons, hx, false_or, ih, List.mem_filter, bne_iff_ne, ne_eq,
          decide_eq_true_eq]
        tauto

theorem nodup_uniqueKeys : ∀ l : List String, (uniqueKeys l).Nodup := by
  intro l
  induction l using uniqueKeys.induct with
  | case1 =>
      rw [uniqueKeys]
      exact List.nodup_nil
  | case2 s rest ih =>
      rw [uniqueKeys]
      refine List.nodup_cons.mpr ⟨fun hmem => ?_, ih⟩
      have := (mem_uniqueKeys _ _).mp hmem
      simp at this

/-- C2: in all-sites mode the distribution reaction groups the whole
dataset by site — one slice per distinct site, slice value = sum of that
site's class column — and its output is identical for every payload
range, since the payload slider is not an input of the pie callback. -/
theorem distribution_all_sites_ignores_payload (ds : Dataset) (c c' : ControlState)
    (h : c.site = "ALL") (h' : c'.site = "ALL") :
    distribution_reaction ds c = distribution_reaction ds c' ∧
    (distribution_reaction ds c).data.map Prod.fst = uniqueKeys (ds.map (·.launchSite)) ∧
    ((distribution_reaction ds c).data.map Prod.fst).Nodup ∧
    (∀ s, s ∈ (distribution_reaction ds c).data.map Prod.fst ↔
        ∃ r ∈ ds, r.launchSite = s) ∧
    (∀ q ∈ (distribution_reaction ds c).data,
        q.2 = (presentClasses (siteRecords ds q.1)).sum) := by
  have hd : distribution_reaction ds c = get_pie_chart ds "ALL" := by
    rw [distribution_reaction, h]
  have hd' : distribution_reaction ds c' = get_pie_chart ds "ALL" := by
    rw [distribution_reaction, h']
  have hdata : (get_pie_chart ds "ALL").data = pie_all ds := rfl
  have hfst : (pie_all ds).map Prod.fst = uniqueKeys (ds.map (·.launchSite)) := by
    simp [pie_all, List.map_map, Function.comp_def]
  refine ⟨hd.trans hd'.symm, ?_, ?_, ?_, ?_⟩
  · rw [hd, hdata, hfst]
  · rw [hd, hdata, hfst]
    exact nodup_uniqueKeys _
  · intro s
    rw [hd, hdata, hfst, mem_uniqueKeys]
    constructor
    · intro hs
      obtain ⟨r, hr, hrs⟩ := List.mem_map.mp hs
      exact ⟨r, hr, hrs⟩
    · rintro ⟨r, hr, hrs⟩
      exact List.mem_map.mpr ⟨r, hr, hrs⟩
  · intro q hq
    rw [hd, hdata, pie_all] at hq
    obtain ⟨s, -, hqs⟩ := List.mem_map.mp hq
    rw [← hqs]

/-- Witness for C2: on the scenario dataset the pie output for range
(0, 10000) and for range (2500, 3000) coincide. -/
theorem distribution_ignores_payload_witness :
    distribution_reaction sampleDS { site := "ALL", low := 0, high := 10000 }
      = distribution_reaction sampleDS { site := "ALL", low := 2500, high := 3000 } :=
  (distribution_all_sites_ignores_payload sampleDS
      { site := "ALL", low := 0, high := 10000 }
      { site := "ALL", low := 2500, high := 3000 } rfl rfl).1

theorem length_filter_split {α : Type} (p : α → Bool) (l : List α) :
    (l.filter p).length + (l.filter (fun a => !(p a))).length = l.length := by
  induction l with
  | nil => rfl
  | cons a l ih =>
      cases hp : p a <;> simp [List.filter_cons, hp] <;> omega

theorem count_filter_ne {v k : Int} (hvk : v ≠ k) (l : List Int) :
    l.count v = (l.filter (fun x => !(x == k))).count v := by
  rw [List.count_eq_countP, List.count_eq_countP, List.countP_eq_length_filter,
    List.countP_eq_length_filter, List.filter_filter]
  congr 1
  refine List.filter_congr fun x _ => ?_
  cases hx : x == v with
  | false => simp
  | true =>
      have hxv : x = v := by simpa using hx
      subst hxv
      simp [hvk]

theorem sum_counts_of_complete :
    ∀ (ks : List Int) (l : List Int), ks.Nodup → (∀ x ∈ l, x ∈ ks) →
      (ks.map (fun v => l.count v)).sum = l.length := by
  intro ks
  induction ks with
  | nil =>
      intro l _ hcomp
      have hl : l = [] := List.eq_nil_iff_forall_not_mem.mpr
        (fun a ha => by simpa using hcomp a ha)
      simp [hl]
  | cons k ks ih =>
      intro l hnd hcomp
      have hknotin : k ∉ ks := (List.nodup_cons.mp hnd).1
      have hcount_k : l.count k = (l.filter (fun x => x == k)).length := by
        rw [List.count_eq_countP, List.countP_eq_length_filter]
      have hmapeq : ks.map (fun v => l.count v)
          = ks.map (fun v => (l.filter (fun x => !(x == k))).count v) :=
        List.map_congr_left fun v hv =>
          count_filter_ne (fun hvk => hknotin (by rw [← hvk]; exact hv)) l
      have hcomp' : ∀ x ∈ l.filter (fun x => !(x == k)), x ∈ ks := by
        intro x hx
        obtain ⟨hxl, hxk⟩ := List.mem_filter.mp hx
        have hxk' : x ≠ k := by simpa using hxk
        rcases List.mem_cons.mp (hcomp x hxl) with hcase | hcase
        · exact absurd hcase hxk'
        · exact hcase
      rw [List.map_cons, List.sum_cons, hcount_k, hmapeq,
        ih _ (List.nodup_cons.mp hnd).2 hcomp', length_filter_split]

theorem count_presentClasses (l : List LaunchRecord) (v : Int) :
    (presentClasses l).count v = (l.filter (fun r => r.cls == some v)).length := by
  unfold presentClasses
  induction l with
  | nil => rfl
  | cons r rest ih =>
      cases hc : r.cls with
      | none => simp [List.filterMap_cons, hc, List.filter_cons, ih]
      | some c =>
          by_cases hcv : c = v <;>
            simp [List.filterMap_cons, hc, List.filter_cons,
              List.count_cons, hcv, ih]

theorem presentClasses_length_filter (l : List LaunchRecord) :
    (presentClasses l).length = (l.filter (fun r => (r.cls).isSome)).length := by
  unfold presentClasses
  induction l with
  | nil => rfl
  | cons r rest ih =>
      cases hc : r.cls <;>
        simp [List.filterMap_cons, hc, List.filter_cons, ih]

theorem single_counts_vals_nodup (ds : Dataset) (s : String) :
    (List.insertionSort (· ≤ ·) (presentClasses (siteRecords ds s)).dedup).Nodup :=
  (List.perm_insertionSort (· ≤ ·) _).nodup_iff.mpr (List.nodup_dedup _)

theorem single_counts_vals_mem (ds : Dataset) (s : String) (v : Int) :
    v ∈ List.insertionSort (· ≤ ·) (presentClasses (siteRecords ds s)).dedup ↔
      ∃ r ∈ siteRecords ds s, r.cls = some v := by
  rw [List.mem_insertionSort, List.mem_dedup]
  unfold presentClasses
  rw [List.mem_filterMap]

theorem single_counts_fst (ds : Dataset) (s : String) :
    (single_counts ds s).map Prod.fst
      = List.insertionSort (· ≤ ·) (presentClasses (siteRecords ds s)).dedup := by
  simp [single_counts, List.map_map, Function.comp_def]

/-- C3: in single-site mode the pie data is built from only the selected
site's rows, one slice per present class value in ascending order, each
counting that value's occurrences; 1 is labeled "Success", 0 "Failure",
anything else its string form; with only 0/1 outcomes present the counts
sum to the number of the site's rows. -/
theorem single_site_distribution (ds : Dataset) (s : String) (hs : s ≠ "ALL") :
    (get_pie_chart ds s).data
        = (single_counts ds s).map (fun vc => (outcomeLabel vc.1, (vc.2 : Int))) ∧
    outcomeLabel 1 = "Success" ∧
    outcomeLabel 0 = "Failure" ∧
    (∀ v : Int, v ≠ 0 → v ≠ 1 → outcomeLabel v = toString v) ∧
    ((single_counts ds s).map Prod.fst).Sorted (· < ·) ∧
    (∀ vc ∈ single_counts ds s,
        vc.2 = ((siteRecords ds s).filter (fun r => r.cls == some vc.1)).length) ∧
    (∀ v : Int, v ∈ (single_counts ds s).map Prod.fst ↔
        ∃ r ∈ siteRecords ds s, r.cls = some v) ∧
    ((∀ r ∈ siteRecords ds s, r.cls = some 0 ∨ r.cls = some 1) →
      ((single_counts ds s).map Prod.snd).sum = (siteRecords ds s).length) := by
  refine ⟨?_, rfl, rfl, ?_, ?_, ?_, ?_, ?_⟩
  · rw [get_pie_chart, if_neg (by simpa using hs)]
  · intro v h0 h1
    rw [outcomeLabel, if_neg h0, if_neg h1]
  · rw [single_counts_fst]
    exact ((List.sorted_insertionSort (· ≤ ·) _).lt_of_le (single_counts_vals_nodup ds s))
  · intro vc hvc
    obtain ⟨v, -, hexpr⟩ := List.mem_map.mp hvc
    rw [← hexpr]
    exact count_presentClasses _ _
  · intro v
    rw [single_counts_fst]
    exact single_counts_vals_mem ds s v
  · intro hpresent
    have hsum : ((single_counts ds s).map Prod.snd).sum
        = ((List.insertionSort (· ≤ ·) (presentClasses (siteRecords ds s)).dedup).map
            (fun v => (presentClasses (siteRecords ds s)).count v)).sum := by
      simp [single_counts, List.map_map, Function.comp_def]
    have hcomp : ∀ x ∈ presentClasses (siteRecords ds s),
        x ∈ List.insertionSort (· ≤ ·) (presentClasses (siteRecords ds s)).dedup := by
      intro x hx
      rw [List.mem_insertionSort, List.mem_dedup]
      exact hx
    have hfe : (siteRecords ds s).filter (fun r => (r.cls).isSome) = siteRecords ds s :=
      List.filter_eq_self.mpr fun r hr => by
        rcases hpresent r hr with hc | hc <;> simp [hc]
    rw [hsum, sum_counts_of_complete _ _ (single_counts_vals_nodup ds s) hcomp,
      presentClasses_length_filter, hfe]

/-- Witness for C3: on the scenario dataset, site A has one failure and
one success, so the two counts sum to its two rows. -/
theorem single_site_distribution_witness :
    ((single_counts sampleDS "A").map Prod.snd).sum = (siteRecords sampleDS "A").length :=
  (single_site_distribution sampleDS "A" (by decide)).2.2.2.2.2.2.2 (by decide)

/-- C9: missing outcome values are silently dropped in single-site mode:
the counts sum to the number of the site's rows whose outcome is present,
and every slice corresponds to an outcome value actually present. -/
theorem single_counts_present_only (ds : Dataset) (s : String) :
    ((single_counts ds s).map Prod.snd).sum
        = ((siteRecords ds s).filter (fun r => (r.cls).isSome)).length ∧
    (∀ v ∈ (single_counts ds s).map Prod.fst,
        ∃ r ∈ siteRecords ds s, r.cls = some v) := by
  constructor
  · have hsum : ((single_counts ds s).map Prod.snd).sum
        = ((List.insertionSort (· ≤ ·) (presentClasses (siteRecords ds s)).dedup).map
            (fun v => (presentClasses (siteRecords ds s)).count v)).sum := by
      simp [single_counts, List.map_map, Function.comp_def]
    have hcomp : ∀ x ∈ presentClasses (siteRecords ds s),
        x ∈ List.insertionSort (· ≤ ·) (presentClasses (siteRecords ds s)).dedup := by
      intro x hx
      rw [List.mem_insertionSort, List.mem_dedup]
      exact hx
    rw [hsum, sum_counts_of_complete _ _ (single_counts_vals_nodup ds s) hcomp,
      presentClasses_length_filter]
  · intro v hv
    rw [single_counts_fst] at hv
    exact (single_counts_vals_mem ds s v).mp hv

/-- Witness for C9: with the all-NaN row added to site A, the counts sum
to 2 — the rows with a present outcome — not to the 3 rows of site A. -/
theorem single_counts_present_only_witness :
    ((single_counts sampleDSN "A").map Prod.snd).sum
      = ((siteRecords sampleDSN "A").filter (fun r => (r.cls).isSome)).length :=
  (single_counts_present_only sampleDSN "A").1

theorem presentClasses_sum_getD (l : List LaunchRecord) :
    (presentClasses l).sum = (l.map (fun r => (r.cls).getD 0)).sum := by
  unfold presentClasses
  induction l with
  | nil => rfl
  | cons r rest ih =>
      cases hc : r.cls <;> simp [List.filterMap_cons, hc, ih]

theorem sum_map_filter_split (p : LaunchRecord → Bool) (f : LaunchRecord → Int)
    (l : List LaunchRecord) :
    (l.map f).sum = ((l.filter p).map f).sum + ((l.filter (fun a => !(p a))).map f).sum := by
  induction l with
  | nil => rfl
  | cons a l ih =>
      cases hp : p a <;> simp [List.filter_cons, hp, ih] <;> ring

theorem sum_over_sites :
    ∀ (ks : List String) (ds : Dataset), ks.Nodup → (∀ r ∈ ds, r.launchSite ∈ ks) →
      (ks.map (fun s => (presentClasses (siteRecords ds s)).sum)).sum
        = (presentClasses ds).sum := by
  intro ks
  induction ks with
  | nil =>
      intro ds _ hcomp
      have hds : ds = [] := List.eq_nil_iff_forall_not_mem.mpr
        (fun r hr => by simpa using hcomp r hr)
      simp [hds, presentClasses]
  | cons k ks ih =>
      intro ds hnd hcomp
      have hknotin : k ∉ ks := (List.nodup_cons.mp hnd).1
      have hsplit := sum_map_filter_split (fun r => r.launchSite == k)
        (fun r => (r.cls).getD 0) ds
      have hrest : ∀ s ∈ ks,
          siteRecords ds s = siteRecords (ds.filter (fun r => !(r.launchSite == k))) s := by
        intro s hsk
        have hsne : s ≠ k := fun h => hknotin (by rw [← h]; exact hsk)
        unfold siteRecords
        rw [List.filter_filter]
        refine List.filter_congr fun r _ => ?_
        cases hb : r.launchSite == s with
        | false => simp
        | true =>
            have hr : r.launchSite = s := by simpa using hb
            simp [hr, hsne]
      have hcomp' : ∀ r ∈ ds.filter (fun r => !(r.launchSite == k)), r.launchSite ∈ ks := by
        intro r hr
        obtain ⟨hrl, hrk⟩ := List.mem_filter.mp hr
        have hrk' : r.launchSite ≠ k := by simpa using hrk
        rcases List.mem_cons.mp (hcomp r hrl) with hcase | hcase
        · exact absurd hcase hrk'
        · exact hcase
      have hmapeq : ks.map (fun s => (presentClasses (siteRecords ds s)).sum)
          = ks.map (fun s =>
              (presentClasses
                (siteRecords (ds.filter (fun r => !(r.launchSite == k))) s)).sum) :=
        List.map_congr_left fun s hsk => by rw [hrest s hsk]
      rw [List.map_cons, List.sum_cons, hmapeq,
        ih _ (List.nodup_cons.mp hnd).2 hcomp']
      rw [presentClasses_sum_getD ds, hsplit,
        presentClasses_sum_getD (siteRecords ds k),
        presentClasses_sum_getD (ds.filter (fun r => !(r.launchSite == k)))]
      rfl

theorem sum_getD_eq_success_count (ds : Dataset)
    (h : ∀ r ∈ ds, r.cls = some 0 ∨ r.cls = some 1) :
    (ds.map (fun r => (r.cls).getD 0)).sum
      = ((ds.filter (fun r => r.cls == some 1)).length : Int) := by
  induction ds with
  | nil => rfl
  | cons r rest ih =>
      have ihr := ih (fun q hq => h q (List.mem_cons_of_mem r hq))
      rcases h r (List.mem_cons_self r rest) with hc | hc
      · simp [List.filter_cons, hc, ihr]
      · simp [List.filter_cons, hc, ihr]
        omega

/-- C7: the all-sites pie slices sum to the dataset's total success
count: with the dataset invariant that every outcome is a present 0/1,
the sum of the per-site class sums equals the number of rows with
class 1 in the unfiltered dataset. -/
theorem pie_all_success_sum (ds : Dataset)
    (h : ∀ r ∈ ds, r.cls = some 0 ∨ r.cls = some 1) :
    ((pie_all ds).map Prod.snd).sum
      = ((ds.filter (fun r => r.cls == some 1)).length : Int) := by
  have h1 : ((pie_all ds).map Prod.snd).sum
      = ((uniqueKeys (ds.map (·.launchSite))).map
          (fun s => (presentClasses (siteRecords ds s)).sum)).sum := by
    simp [pie_all, List.map_map, Function.comp_def]
  rw [h1, sum_over_sites _ _ (nodup_uniqueKeys _)
      (fun r hr => (mem_uniqueKeys _ _).mpr (List.mem_map_of_mem _ hr)),
    presentClasses_sum_getD, sum_getD_eq_success_count ds h]

/-- Witness for C7: on the scenario dataset the slice values 1 and 2 sum
to the three successful rows. -/
theorem pie_all_success_sum_witness :
    ((pie_all sampleDS).map Prod.snd).sum
      = ((sampleDS.filter (fun r => r.cls == some 1)).length : Int) :=
  pie_all_success_sum sampleDS (by decide)

/-- C4: `load_data` fails with a data-load error exactly when the file is
missing; with the file present it returns the full table iff every
required column is present, and reports a schema error iff some required
column is absent, the error naming exactly the missing columns. -/
theorem load_data_spec (src : CSVSource) :
    (src.pathExists = false → ∃ msg, load_data src = .error (.dataLoadError msg)) ∧
    (src.pathExists = true →
      ((load_data src = .ok src.rows) ↔ ∀ c ∈ required_cols, c ∈ src.columns) ∧
      ((∃ m, load_data src = .error (.schemaError m)) ↔
        ∃ c ∈ required_cols, c ∉ src.columns) ∧
      (∀ m, load_data src = .error (.schemaError m) →
        ∀ c, c ∈ m ↔ (c ∈ required_cols ∧ c ∉ src.columns)) ∧
      (∀ rows, load_data src = .ok rows → rows = src.rows)) := by
  set L := List.insertionSort (· ≤ ·)
    (required_cols.filter (fun c => !(src.columns.contains c))) with hL
  have hmemL : ∀ c, c ∈ L ↔ (c ∈ required_cols ∧ c ∉ src.columns) := by
    intro c
    rw [hL, List.mem_insertionSort, List.mem_filter]
    simp
  have hLnil : L = [] ↔ ∀ c ∈ required_cols, c ∈ src.columns := by
    constructor
    · intro h c hc
      by_contra hnc
      have hcL : c ∈ L := (hmemL c).mpr ⟨hc, hnc⟩
      rw [h] at hcL
      exact absurd hcL (List.not_mem_nil c)
    · intro h
      rw [List.eq_nil_iff_forall_not_mem]
      intro c hc
      obtain ⟨h1, h2⟩ := (hmemL c).mp hc
      exact h2 (h c h1)
  constructor
  · intro hp
    exact ⟨_, by rw [load_data, if_pos hp]⟩
  · intro hp
    have hp' : ¬ (src.pathExists = false) := by simp [hp]
    have hload_eq : load_data src
        = if L.isEmpty then Except.ok src.rows
          else Except.error (.schemaError L) := by
      rw [load_data, if_neg hp']
    by_cases hE : L.isEmpty = true
    · rw [hload_eq, if_pos hE]
      have hall : ∀ c ∈ required_cols, c ∈ src.columns :=
        hLnil.mp (List.isEmpty_iff.mp hE)
      refine ⟨iff_of_true rfl hall, ?_, ?_, ?_⟩
      · constructor
        · rintro ⟨m, hm⟩
          simp at hm
        · rintro ⟨c, hc, hnc⟩
          exact absurd (hall c hc) hnc
      · intro m hm
        simp at hm
      · intro rows hrows
        exact (Except.ok.inj hrows).symm
    · have hne : L ≠ [] := fun h => hE (List.isEmpty_iff.mpr h)
      rw [hload_eq, if_neg hE]
      refine ⟨?_, ?_, ?_, ?_⟩
      · constructor
        · intro h
          simp at h
        · intro hall
          exact absurd (hLnil.mpr hall) hne
      · constructor
        · intro _
          obtain ⟨c, hc⟩ := List.exists_mem_of_ne_nil L hne
          obtain ⟨h1, h2⟩ := (hmemL c).mp hc
          exact ⟨c, h1, h2⟩
        · intro _
          exact ⟨L, rfl⟩
      · intro m hm
        have hmL : L = m := LoadError.schemaError.inj (Except.error.inj hm)
        rw [← hmL]
        exact hmemL
      · intro rows hrows
        simp at hrows

/-- Witness for C4: a readable source missing the `class` column produces
a schema error. -/
theorem load_data_witness :
    ∃ m, load_data { pathExists := true, columns := ["Launch Site"], rows := [] }
      = .error (.schemaError m) :=
  ((load_data_spec
      { pathExists := true, columns := ["Launch Site"], rows := [] }).2 rfl).2.1.mpr
    ⟨"class", by decide, by decide⟩

theorem listMin_eq_none_iff : ∀ l : List ℚ, listMin l = none ↔ l = [] := by
  intro l
  cases l with
  | nil => simp [listMin]
  | cons p ps => simp [listMin]

theorem listMin_spec : ∀ (l : List ℚ) (m : ℚ), listMin l = some m →
    m ∈ l ∧ ∀ p ∈ l, m ≤ p := by
  intro l
  induction l with
  | nil =>
      intro m h
      cases h
  | cons p ps ih =>
      intro m h
      rw [listMin] at h
      cases hps : listMin ps with
      | none =>
          have hnil : ps = [] := (listMin_eq_none_iff ps).mp hps
          rw [hps] at h
          have hm : m = p := (Option.some.inj h).symm
          subst hm
          subst hnil
          exact ⟨List.mem_cons_self _ _, by simp⟩
      | some m' =>
          rw [hps] at h
          have hm : m = min p m' := (Option.some.inj h).symm
          obtain ⟨hmem, hbound⟩ := ih m' hps
          subst hm
          constructor
          · rcases min_choice p m' with hc | hc <;> rw [hc]
            · exact List.mem_cons_self _ _
            · exact List.mem_cons_of_mem _ hmem
          · intro q hq
            rcases List.mem_cons.mp hq with hcase | hcase
            · rw [hcase]
              exact min_le_left _ _
            · exact le_trans (min_le_right _ _) (hbound q hcase)

theorem listMax_eq_none_iff : ∀ l : List ℚ, listMax l = none ↔ l = [] := by
  intro l
  cases l with
  | nil => simp [listMax]
  | cons p ps => simp [listMax]

theorem listMax_spec : ∀ (l : List ℚ) (m : ℚ), listMax l = some m →
    m ∈ l ∧ ∀ p ∈ l, p ≤ m := by
  intro l
  induction l with
  | nil =>
      intro m h
      cases h
  | cons p ps ih =>
      intro m h
      rw [listMax] at h
      cases hps : listMax ps with
      | none =>
          have hnil : ps = [] := (listMax_eq_none_iff ps).mp hps
          rw [hps] at h
          have hm : m = p := (Option.some.inj h).symm
          subst hm
          subst hnil
          exact ⟨List.mem_cons_self _ _, by simp⟩
      | some m' =>
          rw [hps] at h
          have hm : m = max p m' := (Option.some.inj h).symm
          obtain ⟨hmem, hbound⟩ := ih m' hps
          subst hm
          constructor
          · rcases max_choice p m' with hc | hc <;> rw [hc]
            · exact List.mem_cons_self _ _
            · exact List.mem_cons_of_mem _ hmem
          · intro q hq
            rcases List.mem_cons.mp hq with hcase | hcase
            · rw [hcase]
              exact le_max_left _ _
            · exact le_trans (hbound q hcase) (le_max_right _ _)

/-- C8: the domain index and control defaults: `launch_sites` is the
lexicographically sorted list of distinct site names, the dropdown offers
"ALL" followed by them with default "ALL", and the payload slider has
fixed nominal bounds 0..10000 with marks at the five round values while
its initial value is the dataset's observed (min, max) payload. -/
theorem domain_index_controls (ds : Dataset) :
    (launch_sites ds).Sorted (· ≤ ·) ∧
    (launch_sites ds).Nodup ∧
    (∀ x, x ∈ launch_sites ds ↔ ∃ r ∈ ds, r.launchSite = x) ∧
    dropdown_options ds = "ALL" :: launch_sites ds ∧
    dropdown_default = "ALL" ∧
    (payload_slider ds).min = 0 ∧
    (payload_slider ds).max = 10000 ∧
    (payload_slider ds).marks = [0, 2500, 5000, 7500, 10000] ∧
    (payload_slider ds).value = (min_payload ds, max_payload ds) ∧
    (∀ m, min_payload ds = some m →
      (∃ r ∈ ds, r.payloadMass = some m) ∧
      (∀ r ∈ ds, ∀ p, r.payloadMass = some p → m ≤ p)) ∧
    (∀ m, max_payload ds = some m →
      (∃ r ∈ ds, r.payloadMass = some m) ∧
      (∀ r ∈ ds, ∀ p, r.payloadMass = some p → p ≤ m)) := by
  refine ⟨List.sorted_insertionSort (· ≤ ·) _,
    (List.perm_insertionSort (· ≤ ·) _).nodup_iff.mpr (List.nodup_dedup _),
    ?_, rfl, rfl, rfl, rfl, rfl, rfl, ?_, ?_⟩
  · intro x
    rw [launch_sites, List.mem_insertionSort, List.mem_dedup, List.mem_map]
  · intro m hm
    obtain ⟨hmem, hbound⟩ := listMin_spec _ m hm
    constructor
    · obtain ⟨r, hr, hrm⟩ := List.mem_filterMap.mp hmem
      exact ⟨r, hr, hrm⟩
    · intro r hr p hp
      exact hbound p (List.mem_filterMap.mpr ⟨r, hr, hp⟩)
  · intro m hm
    obtain ⟨hmem, hbound⟩ := listMax_spec _ m hm
    constructor
    · obtain ⟨r, hr, hrm⟩ := List.mem_filterMap.mp hmem
      exact ⟨r, hr, hrm⟩
    · intro r hr p hp
      exact hbound p (List.mem_filterMap.mpr ⟨r, hr, hp⟩)

/-- Witness for C8: on the scenario dataset the slider's initial low
handle 1000 is an actual payload and bounds all payloads below. -/
theorem domain_index_controls_witness :
    (∃ r ∈ sampleDS, r.payloadMass = some 1000) ∧
    (∀ r ∈ sampleDS, ∀ p, r.payloadMass = some p → 1000 ≤ p) :=
  (domain_index_controls sampleDS).2.2.2.2.2.2.2.2.2.1 1000 (by decide)
